import Mathlib

/-!
Verification of the adaptive image loader (scroll-velocity driven
low→high image upgrades).

Shallow embedding of the TypeScript sources:
  * `src/loader.ts`   — the image loader (Resource Upgrade Store)
  * `observer.ts`     — the visibility tracker (IntersectionObserver wrapper)
  * `velocity.ts`     — the scroll velocity classifier
  * `core.ts`         — the upgrade orchestrator (`createCore`)
  * `src/index.ts`    — the public API (`initResourceLoader`)

Elements (`HTMLImageElement` references) are modelled as opaque natural
numbers with identity equality; the JS `Map`/`Set` keyed by element
reference become association lists / lists preserving insertion order.
Numbers (positions, timestamps, velocities, thresholds, durations) are
rationals.  The DOM side effects the code performs (`element.src = …`,
`setAttribute("data-label", …)`) are modelled by an explicit `Dom` map
threaded through the operations.  The single-threaded event-driven
runtime is modelled by a `step` function over an `Event` type covering
the three callback sources (scroll sample, intersection sample, debounce
timer firing) and the two public operations (`registerImage`,
`destroy`).
-/

namespace AdaptiveLoader

/-- Association list lookup (models `Map.get`). -/
def alGet {α : Type} (l : List (Nat × α)) (k : Nat) : Option α :=
  (l.find? (fun p => p.1 == k)).map (·.2)

/-- Association list update-or-insert (models `Map.set`). -/
def alSet {α : Type} (l : List (Nat × α)) (k : Nat) (v : α) : List (Nat × α) :=
  match l with
  | [] => [(k, v)]
  | (k', v') :: rest =>
    if k' == k then (k, v) :: rest else (k', v') :: alSet rest k v

/-- Association list removal (models `Map.delete`). -/
def alRemove {α : Type} (l : List (Nat × α)) (k : Nat) : List (Nat × α) :=
  l.filter (fun p => p.1 != k)

/-- Model of `Set.add` for a JS `Set` kept as an insertion-ordered list. -/
def setAdd (l : List Nat) (e : Nat) : List Nat :=
  if e ∈ l then l else l ++ [e]

/-! ## DOM model -/

/-- The slice of an `HTMLImageElement` the code reads and writes:
its `src` attribute and its `data-label` attribute. -/
structure DomElem where
  src : String
  dataLabel : Option String
deriving DecidableEq, Repr

/-- The DOM: element reference to its mutable attributes. -/
def Dom := List (Nat × DomElem)

instance : DecidableEq Dom := by unfold Dom; infer_instance

/-- Read an element from the DOM (a fresh element has empty `src` and no
`data-label`). -/
def domGet (d : Dom) (e : Nat) : DomElem :=
  (alGet d e).getD ⟨"", none⟩

/-- Model of `element.src = v`. -/
def domSetSrc (d : Dom) (e : Nat) (v : String) : Dom :=
  alSet d e { domGet d e with src := v }

/-- Model of `element.setAttribute("data-label", v)`. -/
def domSetLabel (d : Dom) (e : Nat) (v : String) : Dom :=
  alSet d e { domGet d e with dataLabel := some v }

/-! ## Image loader (`src/loader.ts`) -/

/-- Structure `ImageResourceConfig` from `loader.ts`. -/
structure ImageResourceConfig where
  lowSrc : String
  highSrc : String
deriving DecidableEq, Repr

/-- Structure `TrackedImage` from `loader.ts` (the `element` back-reference is the
map key itself, so it is not duplicated here). -/
structure TrackedImage where
  lowSrc : String
  highSrc : String
  upgraded : Bool
deriving DecidableEq, Repr

/-- The private loader `images` map. -/
structure LoaderState where
  images : List (Nat × TrackedImage)
deriving DecidableEq, Repr

/-- Function `createImageLoader()` — starts with an empty map. -/
def createImageLoader : LoaderState := ⟨[]⟩

/-- Function `registerImage` from `loader.ts`: sets `element.src` to the low
source and (re)creates the tracked entry with `upgraded = false`. -/
def loaderRegisterImage (s : LoaderState) (dom : Dom) (e : Nat)
    (cfg : ImageResourceConfig) : LoaderState × Dom :=
  let dom := domSetSrc dom e cfg.lowSrc
  (⟨alSet s.images e ⟨cfg.lowSrc, cfg.highSrc, false⟩⟩, dom)

/-- Function `upgradeImage` from `loader.ts`: `false` without side effects for an
unknown or already-upgraded element; otherwise marks it upgraded, sets
`element.src` to the high source and returns `true`. -/
def loaderUpgradeImage (s : LoaderState) (dom : Dom) (e : Nat) :
    LoaderState × Dom × Bool :=
  match alGet s.images e with
  | none => (s, dom, false)
  | some tracked =>
    if tracked.upgraded then (s, dom, false)
    else
      (⟨alSet s.images e { tracked with upgraded := true }⟩,
       domSetSrc dom e tracked.highSrc, true)

/-- Function `isUpgraded` from `loader.ts`: `false` for unknown elements. -/
def loaderIsUpgraded (s : LoaderState) (e : Nat) : Bool :=
  match alGet s.images e with
  | none => false
  | some tracked => tracked.upgraded

/-- Function `unregisterImage` from `loader.ts`. -/
def loaderUnregisterImage (s : LoaderState) (e : Nat) : LoaderState :=
  ⟨alRemove s.images e⟩

/-- Function `clear` from `loader.ts`. -/
def loaderClear (_s : LoaderState) : LoaderState := ⟨[]⟩

/-! ## Velocity classifier (`velocity.ts`) -/

/-- Type `ScrollSpeed` from `velocity.ts`. -/
inductive ScrollSpeed where
  | FAST
  | SLOW
deriving DecidableEq, Repr

/-- Structure `VelocityState` from `velocity.ts`: velocity in px/ms plus its
FAST/SLOW classification. -/
structure VelocityState where
  velocity : Rat
  speed : ScrollSpeed
deriving DecidableEq, Repr

/-- The closure state of `initScrollVelocity`: `lastY`, `lastTime`,
`lastSpeed`, and whether the scroll listener is still attached
(`destroy` removes it). -/
structure VelState where
  lastY : Rat
  lastTime : Rat
  lastSpeed : ScrollSpeed
  attached : Bool
deriving DecidableEq, Repr

/-- The velocity computation of `handleScroll` in `velocity.ts`:
`dy / dt` when `dt > 0`, else `0` (division-by-zero guard). -/
def computeVelocity (lastY lastTime now y : Rat) : Rat :=
  let dy := |y - lastY|
  let dt := now - lastTime
  if dt > 0 then dy / dt else 0

/-- The classification of `handleScroll` in `velocity.ts`:
`velocity <= slowVelocityThreshold` is SLOW, otherwise FAST. -/
def classifySpeed (threshold v : Rat) : ScrollSpeed :=
  if v ≤ threshold then .SLOW else .FAST

/-- Function `handleScroll` from `velocity.ts`: computes the new velocity state,
updates the closure variables, and returns the emission passed to the
listener. -/
def velHandleScroll (threshold : Rat) (st : VelState) (now y : Rat) :
    VelState × VelocityState :=
  let v := computeVelocity st.lastY st.lastTime now y
  let sp := classifySpeed threshold v
  (⟨y, now, sp, st.attached⟩, ⟨v, sp⟩)

/-- Function `initScrollVelocity` from `velocity.ts`: captures the initial scroll
position `y0` and time `t0`, attaches the scroll listener, and returns
the initial synthetic emission `{velocity := 0, speed := lastSpeed}`
(with `lastSpeed` initialised to SLOW) delivered synchronously to the
listener before any real sample. -/
def initScrollVelocity (y0 t0 : Rat) : VelState × VelocityState :=
  (⟨y0, t0, .SLOW, true⟩, ⟨0, .SLOW⟩)

/-- Method `destroy` of the velocity controller: removes the scroll listener. -/
def velDestroy (st : VelState) : VelState :=
  { st with attached := false }

/-! ## Visibility tracker (`observer.ts`)

The `visibilityMap` and the `IntersectionObserver` target set are
modified in lockstep by `observeImage` / `unobserveImage` /
`disconnect`, so the observed set always equals the key set of the map; the
map alone represents both. -/

/-- The tracker field `visibilityMap` (element → currently visible flag). -/
def VisMap := List (Nat × Bool)

instance : DecidableEq VisMap := by unfold VisMap; infer_instance

/-- Function `observeImage` from `observer.ts`: unconditionally stores `false`
for the element and starts observing it. -/
def visObserveImage (m : VisMap) (e : Nat) : VisMap :=
  alSet m e false

/-- Function `unobserveImage` from `observer.ts`. -/
def visUnobserveImage (m : VisMap) (e : Nat) : VisMap :=
  alRemove m e

/-- Function `isVisible` from `observer.ts`: `map.get(img) === true`. -/
def visIsVisible (m : VisMap) (e : Nat) : Bool :=
  alGet m e == some true

/-- Function `disconnect` from `observer.ts`: clears the map and stops all
observation. -/
def visDisconnect (_m : VisMap) : VisMap := []

/-! ## Core orchestrator (`core.ts`) -/

/-- Structure `InitConfig` from `core.ts`. -/
structure InitConfig where
  slowVelocityThreshold : Rat
  slowDurationMs : Rat
deriving DecidableEq, Repr

/-- The whole closure state of `createCore`, together with the DOM it
mutates.  `slowTimer` is the pending debounce timer: `none` when no
timer is scheduled, `some d` when one is pending with effective delay
`d` (the numeric value of the handle is irrelevant to the logic; the payload
records the delay `window.setTimeout` was given, clamped at zero as the
platform clamps negative delays to zero). -/
structure CoreState where
  cfg : InitConfig
  loader : LoaderState
  registeredImages : List Nat
  visMap : VisMap
  currentSpeed : ScrollSpeed
  currentVelocity : Rat
  isSlowStable : Bool
  slowTimer : Option Rat
  vel : VelState
  dom : Dom
deriving DecidableEq

/-- Function `tryUpgradeImage` from `core.ts`: guarded upgrade — a no-op unless
the orchestrator is stable SLOW, the element is registered, and the
loader does not already report it upgraded. -/
def tryUpgradeImage (s : CoreState) (e : Nat) : CoreState :=
  if s.isSlowStable = false then s
  else if e ∉ s.registeredImages then s
  else if loaderIsUpgraded s.loader e then s
  else
    let r := loaderUpgradeImage s.loader s.dom e
    { s with loader := r.1, dom := r.2.1 }

/-- The body of the `forEach` in `attemptUpgradesForVisibleImages`:
skip an element not currently visible, otherwise attempt the guarded
upgrade. -/
def attemptStep (acc : CoreState) (e : Nat) : CoreState :=
  if visIsVisible acc.visMap e then tryUpgradeImage acc e else acc

/-- Function `attemptUpgradesForVisibleImages` from `core.ts`: iterates the
registered set in insertion order, skipping elements not currently
visible, and attempts the guarded upgrade on the rest. -/
def attemptUpgradesForVisibleImages (s : CoreState) : CoreState :=
  s.registeredImages.foldl attemptStep s

/-- Function `handleSpeedChange` from `core.ts`.  FAST: drop stability and cancel
any pending timer.  SLOW: no-op when already stable or when a timer is
already pending, otherwise schedule the debounce timer (delay
`slowDurationMs`, clamped at zero by `window.setTimeout`). -/
def handleSpeedChange (s : CoreState) : CoreState :=
  match s.currentSpeed with
  | .FAST => { s with isSlowStable := false, slowTimer := none }
  | .SLOW =>
    if s.isSlowStable then s
    else if s.slowTimer = none then
      { s with slowTimer := some (max s.cfg.slowDurationMs 0) }
    else s

/-- The debounce timer callback from `core.ts` firing: only possible
while a timer is pending; clears the handle, and if the speed is still
SLOW becomes stable and attempts upgrades for all visible images. -/
def fireSlowTimer (s : CoreState) : CoreState :=
  match s.slowTimer with
  | none => s
  | some _ =>
    let s := { s with slowTimer := none }
    if s.currentSpeed = .SLOW then
      attemptUpgradesForVisibleImages { s with isSlowStable := true }
    else s

/-- The velocity listener from `core.ts`: records the new speed and
velocity, then runs `handleSpeedChange`. -/
def onVelocityUpdate (s : CoreState) (st : VelocityState) : CoreState :=
  handleSpeedChange { s with currentSpeed := st.speed, currentVelocity := st.velocity }

/-- The visibility listener from `core.ts`: an element that just became
visible while the orchestrator is already stable SLOW is upgraded
immediately; all other transitions are ignored. -/
def onVisibilityChange (s : CoreState) (e : Nat) (vis : Bool) : CoreState :=
  if vis && s.isSlowStable then tryUpgradeImage s e else s

/-- One entry of the `IntersectionObserver` callback in `observer.ts`:
only observed elements receive entries; the stored flag is overwritten,
and the listener fires only when the boolean actually changed. -/
def handleIntersection (s : CoreState) (e : Nat) (vis : Bool) : CoreState :=
  if (alGet s.visMap e).isNone then s
  else
    let previous := alGet s.visMap e
    let s := { s with visMap := alSet s.visMap e vis }
    if previous ≠ some vis then onVisibilityChange s e vis else s

/-- Function `registerImage` from `core.ts`: adds to the registered set, tags the
element with a `data-label` when it has none, registers with the loader
(low source applied, `upgraded` reset), starts visibility observation,
and finally attempts an immediate upgrade when stable SLOW and the
element is reported visible. -/
def registerImage (s : CoreState) (e : Nat) (opts : ImageResourceConfig) : CoreState :=
  let s := { s with registeredImages := setAdd s.registeredImages e }
  let s :=
    if (domGet s.dom e).dataLabel.getD "" = "" then
      { s with dom := domSetLabel s.dom e opts.highSrc }
    else s
  let r := loaderRegisterImage s.loader s.dom e opts
  let s := { s with loader := r.1, dom := r.2 }
  let s := { s with visMap := visObserveImage s.visMap e }
  if s.isSlowStable && visIsVisible s.visMap e then tryUpgradeImage s e else s

/-- Function `destroy` from `core.ts`: clears the registered set, disconnects the
visibility tracker, clears the loader, detaches the scroll listener, and
cancels any pending debounce timer.  (`isSlowStable`, `currentSpeed` and
`currentVelocity` are not touched.) -/
def destroy (s : CoreState) : CoreState :=
  { s with registeredImages := [],
           visMap := visDisconnect s.visMap,
           loader := loaderClear s.loader,
           vel := velDestroy s.vel,
           slowTimer := none }

/-- Function `createCore` from `core.ts`: builds the initial closure state
(`currentSpeed = SLOW`, `currentVelocity = 0`, not stable, no timer,
empty loader/registration/visibility state) and runs the initial
synthetic velocity emission `initScrollVelocity` delivers synchronously.
`y0`/`t0` are the ambient `window.scrollY` / `performance.now()` at
start; `dom0` is the ambient DOM.  No validation of `cfg` is
performed. -/
def createCore (cfg : InitConfig) (y0 t0 : Rat) (dom0 : Dom) : CoreState :=
  let r := initScrollVelocity y0 t0
  let s : CoreState :=
    { cfg := cfg
      loader := createImageLoader
      registeredImages := []
      visMap := []
      currentSpeed := .SLOW
      currentVelocity := 0
      isSlowStable := false
      slowTimer := none
      vel := r.1
      dom := dom0 }
  onVelocityUpdate s r.2

/-- Function `initResourceLoader` from `src/index.ts`: a thin wrapper that
forwards the configuration to `createCore` unchanged and exposes
`registerImage`/`destroy`.  It performs no validation either. -/
def initResourceLoader (cfg : InitConfig) (y0 t0 : Rat) (dom0 : Dom) : CoreState :=
  createCore cfg y0 t0 dom0

/-! ## Event-driven runtime

All callbacks run to completion on a single logical thread; an
execution is a sequence of discrete events. -/

/-- The discrete events that can reach the core: a raw scroll sample
(timestamp and position, which `velocity.ts` turns into a classified
emission), an intersection sample for an observed element, the pending
debounce timer firing, and the two public operations. -/
inductive Event where
  | scroll (now y : Rat)
  | intersect (e : Nat) (vis : Bool)
  | timerFire
  | register (e : Nat) (opts : ImageResourceConfig)
  | destroyEvt
deriving DecidableEq, Repr

/-- One event processed to completion.  A scroll sample reaches the
handler only while the scroll listener is attached; an intersection
sample reaches the observer callback only for observed elements (the
guard inside `handleIntersection`); the timer can fire only while
pending (the guard inside `fireSlowTimer`). -/
def step (s : CoreState) : Event → CoreState
  | .scroll now y =>
    if s.vel.attached then
      let r := velHandleScroll s.cfg.slowVelocityThreshold s.vel now y
      onVelocityUpdate { s with vel := r.1 } r.2
    else s
  | .intersect e vis => handleIntersection s e vis
  | .timerFire => fireSlowTimer s
  | .register e opts => registerImage s e opts
  | .destroyEvt => destroy s

/-- A finite execution from a state. -/
def run (s : CoreState) (evs : List Event) : CoreState :=
  evs.foldl step s

/-- The state right after a scroll sample has been recorded by the
velocity module and by the velocity listener of the core, before
`handleSpeedChange` runs (used to characterise the scroll step). -/
def scrollUpdate (s : CoreState) (now y : Rat) : CoreState :=
  { s with
    vel := ⟨y, now,
      classifySpeed s.cfg.slowVelocityThreshold
        (computeVelocity s.vel.lastY s.vel.lastTime now y), s.vel.attached⟩,
    currentSpeed := classifySpeed s.cfg.slowVelocityThreshold
      (computeVelocity s.vel.lastY s.vel.lastTime now y),
    currentVelocity := computeVelocity s.vel.lastY s.vel.lastTime now y }

/-! ## Loader operation traces

For the per-registration monotonicity of the upgraded flag we also need
the operations of the loader interface as first-class values. -/

/-- One call through the `ImageLoaderController` interface of
`loader.ts`. -/
inductive LoaderOp where
  | register (e : Nat) (cfg : ImageResourceConfig)
  | upgrade (e : Nat)
  | unregister (e : Nat)
  | clear
deriving DecidableEq, Repr

/-- Interpretation of one loader call on the loader state and the DOM. -/
def applyLoaderOp (p : LoaderState × Dom) : LoaderOp → LoaderState × Dom
  | .register e cfg => loaderRegisterImage p.1 p.2 e cfg
  | .upgrade e =>
    let r := loaderUpgradeImage p.1 p.2 e
    (r.1, r.2.1)
  | .unregister e => (loaderUnregisterImage p.1 e, p.2)
  | .clear => (loaderClear p.1, p.2)

/-- Interpretation of a sequence of loader calls. -/
def applyLoaderOps (p : LoaderState × Dom) (ops : List LoaderOp) : LoaderState × Dom :=
  ops.foldl applyLoaderOp p

/-- Whether a loader call ends the current registration of element `e`
(unregisters it, clears the store, or re-registers it). -/
def opResets (op : LoaderOp) (e : Nat) : Bool :=
  match op with
  | .register x _ => x == e
  | .upgrade _ => false
  | .unregister x => x == e
  | .clear => true

/-! ## Association list lemmas -/

theorem alGet_nil {α : Type} (k : Nat) : alGet ([] : List (Nat × α)) k = none := rfl

theorem alGet_cons {α : Type} (a : Nat) (b : α) (tl : List (Nat × α)) (k : Nat) :
    alGet ((a, b) :: tl) k = if a = k then some b else alGet tl k := by
  by_cases h : a = k <;> simp [alGet, List.find?_cons, h]

theorem alGet_alSet_self {α : Type} (l : List (Nat × α)) (k : Nat) (v : α) :
    alGet (alSet l k v) k = some v := by
  induction l with
  | nil => simp [alSet, alGet_cons, alGet_nil]
  | cons hd tl ih =>
    obtain ⟨a, b⟩ := hd
    by_cases h : a = k
    · simp [alSet, h, alGet_cons]
    · simp only [alSet, beq_iff_eq, if_neg h]
      rw [alGet_cons, if_neg h]
      exact ih

theorem alGet_alSet_ne {α : Type} (l : List (Nat × α)) (k k' : Nat) (v : α)
    (h : k' ≠ k) : alGet (alSet l k v) k' = alGet l k' := by
  induction l with
  | nil =>
    rw [alSet, alGet_cons, if_neg (fun hc : k = k' => h hc.symm)]
  | cons hd tl ih =>
    obtain ⟨a, b⟩ := hd
    by_cases ha : a = k
    · subst ha
      rw [alSet, if_pos (by simp), alGet_cons, alGet_cons,
        if_neg (fun hc : a = k' => h hc.symm), if_neg (fun hc : a = k' => h hc.symm)]
    · rw [alSet, if_neg (by simpa using ha), alGet_cons, alGet_cons]
      by_cases hb : a = k'
      · simp [hb]
      · rw [if_neg hb, if_neg hb]
        exact ih

theorem alGet_alRemove_ne {α : Type} (l : List (Nat × α)) (k k' : Nat)
    (h : k' ≠ k) : alGet (alRemove l k) k' = alGet l k' := by
  induction l with
  | nil => simp [alRemove]
  | cons hd tl ih =>
    obtain ⟨a, b⟩ := hd
    by_cases ha : a = k
    · subst ha
      simp only [alRemove, List.filter_cons, bne_self_eq_false, Bool.false_eq_true,
        if_false]
      rw [alGet_cons, if_neg (fun hc : a = k' => h hc.symm)]
      exact ih
    · simp only [alRemove, List.filter_cons]
      rw [if_pos (by simpa using ha), alGet_cons, alGet_cons]
      by_cases hb : a = k'
      · simp [hb]
      · rw [if_neg hb, if_neg hb]
        exact ih

/-! ## DOM lemmas -/

theorem domGet_domSetSrc_self (d : Dom) (e : Nat) (v : String) :
    domGet (domSetSrc d e v) e = { domGet d e with src := v } := by
  unfold domGet domSetSrc
  rw [alGet_alSet_self]
  rfl

/-! ## Loader lemmas -/

theorem loaderUpgradeImage_of_upgraded (s : LoaderState) (dom : Dom) (e : Nat)
    (h : loaderIsUpgraded s e = true) :
    loaderUpgradeImage s dom e = (s, dom, false) := by
  unfold loaderIsUpgraded at h
  cases halGet : alGet s.images e with
  | none => rw [halGet] at h; cases h
  | some t =>
    rw [halGet] at h
    have h' : t.upgraded = true := h
    simp [loaderUpgradeImage, halGet, h']

theorem applyLoaderOp_preserves_upgraded (p : LoaderState × Dom) (op : LoaderOp)
    (e : Nat) (h : loaderIsUpgraded p.1 e = true) (hop : opResets op e = false) :
    loaderIsUpgraded (applyLoaderOp p op).1 e = true := by
  obtain ⟨s, dom⟩ := p
  cases op with
  | register x cfg =>
    have hx : x ≠ e := by simpa [opResets] using hop
    unfold applyLoaderOp loaderRegisterImage loaderIsUpgraded
    rw [alGet_alSet_ne _ _ _ _ (Ne.symm hx)]
    exact h
  | upgrade x =>
    by_cases hxe : x = e
    · subst hxe
      simpa [applyLoaderOp, loaderUpgradeImage_of_upgraded s dom x h] using h
    · unfold applyLoaderOp
      cases halGet : alGet s.images x with
      | none => simpa [loaderUpgradeImage, halGet] using h
      | some t =>
        by_cases hu : t.upgraded
        · simpa [loaderUpgradeImage, halGet, hu] using h
        · unfold loaderIsUpgraded
          simp only [loaderUpgradeImage, halGet, hu, Bool.false_eq_true, if_false]
          rw [alGet_alSet_ne _ _ _ _ (fun hc : e = x => hxe hc.symm)]
          exact h
  | unregister x =>
    have hx : x ≠ e := by simpa [opResets] using hop
    unfold applyLoaderOp loaderUnregisterImage loaderIsUpgraded
    rw [alGet_alRemove_ne _ _ _ (Ne.symm hx)]
    exact h
  | clear => simp [opResets] at hop

theorem applyLoaderOps_preserves_upgraded (ops : List LoaderOp) :
    ∀ p : LoaderState × Dom, ∀ e : Nat, loaderIsUpgraded p.1 e = true →
    (∀ op ∈ ops, opResets op e = false) →
    loaderIsUpgraded (applyLoaderOps p ops).1 e = true := by
  induction ops with
  | nil => intro p e h _; exact h
  | cons op rest ih =>
    intro p e h hops
    have h1 := applyLoaderOp_preserves_upgraded p op e h (hops op (by simp))
    exact ih (applyLoaderOp p op) e h1 (fun o ho => hops o (by simp [ho]))

/-- C1: at-most-once, monotonic upgrade.  `upgradeImage` returns `false`
and changes no state for an unknown or already-upgraded element;
otherwise it marks the element upgraded, applies the high representation
to it, and returns `true`; and once `isUpgraded` reports `true` it keeps
reporting `true`, with every further `upgradeImage` call returning
`false`, across any sequence of loader calls none of which unregisters,
clears or re-registers the element. -/
theorem upgradeImage_at_most_once (s : LoaderState) (dom : Dom) (e : Nat) :
    (alGet s.images e = none → loaderUpgradeImage s dom e = (s, dom, false)) ∧
    (loaderIsUpgraded s e = true → loaderUpgradeImage s dom e = (s, dom, false)) ∧
    (∀ t : TrackedImage, alGet s.images e = some t → t.upgraded = false →
      (loaderUpgradeImage s dom e).2.2 = true ∧
      loaderIsUpgraded (loaderUpgradeImage s dom e).1 e = true ∧
      (domGet (loaderUpgradeImage s dom e).2.1 e).src = t.highSrc) ∧
    (∀ ops : List LoaderOp, loaderIsUpgraded s e = true →
      (∀ op ∈ ops, opResets op e = false) →
      loaderIsUpgraded (applyLoaderOps (s, dom) ops).1 e = true ∧
      (loaderUpgradeImage (applyLoaderOps (s, dom) ops).1
        (applyLoaderOps (s, dom) ops).2 e).2.2 = false) := by
  refine ⟨?_, ?_, ?_, ?_⟩
  · intro h
    simp [loaderUpgradeImage, h]
  · exact loaderUpgradeImage_of_upgraded s dom e
  · intro t ht hup
    refine ⟨?_, ?_, ?_⟩
    · simp [loaderUpgradeImage, ht, hup]
    · simp [loaderUpgradeImage, ht, hup, loaderIsUpgraded, alGet_alSet_self]
    · simp [loaderUpgradeImage, ht, hup, domGet_domSetSrc_self]
  · intro ops h hops
    have hkeep := applyLoaderOps_preserves_upgraded ops (s, dom) e h hops
    refine ⟨hkeep, ?_⟩
    rw [loaderUpgradeImage_of_upgraded _ _ _ hkeep]

/-- Witness for `upgradeImage_at_most_once` at a concrete loader
state. -/
theorem upgradeImage_at_most_once_witness :
    (loaderUpgradeImage ⟨[(7, ⟨"l", "h", false⟩)]⟩ [] 7).2.2 = true ∧
    loaderIsUpgraded
      (applyLoaderOps (⟨[(7, ⟨"l", "h", true⟩)]⟩, [])
        [.upgrade 7, .register 8 ⟨"a", "b"⟩, .unregister 9]).1 7 = true := by
  constructor
  · exact ((upgradeImage_at_most_once ⟨[(7, ⟨"l", "h", false⟩)]⟩ [] 7).2.2.1
      ⟨"l", "h", false⟩ rfl rfl).1
  · exact ((upgradeImage_at_most_once ⟨[(7, ⟨"l", "h", true⟩)]⟩ [] 7).2.2.2
      [.upgrade 7, .register 8 ⟨"a", "b"⟩, .unregister 9] rfl
      (by intro op ho; fin_cases ho <;> rfl)).1

/-! ## Lemmas about the guarded upgrade -/

theorem loaderUpgradeImage_upgraded_mono (s : LoaderState) (dom : Dom) (e x : Nat)
    (h : loaderIsUpgraded s x = true) :
    loaderIsUpgraded (loaderUpgradeImage s dom e).1 x = true := by
  cases halGet : alGet s.images e with
  | none => simpa [loaderUpgradeImage, halGet] using h
  | some t =>
    by_cases hu : t.upgraded
    · simpa [loaderUpgradeImage, halGet, hu] using h
    · by_cases hxe : x = e
      · subst hxe
        unfold loaderIsUpgraded at h
        rw [halGet] at h
        exact absurd h (by simpa using hu)
      · unfold loaderIsUpgraded
        simp only [loaderUpgradeImage, halGet, hu, Bool.false_eq_true, if_false]
        rw [alGet_alSet_ne _ _ _ _ hxe]
        exact h

theorem loaderUpgradeImage_isSome (s : LoaderState) (dom : Dom) (e x : Nat)
    (h : (alGet s.images x).isSome = true) :
    (alGet (loaderUpgradeImage s dom e).1.images x).isSome = true := by
  cases halGet : alGet s.images e with
  | none => simpa [loaderUpgradeImage, halGet] using h
  | some t =>
    by_cases hu : t.upgraded
    · simpa [loaderUpgradeImage, halGet, hu] using h
    · by_cases hxe : x = e
      · subst hxe
        simp [loaderUpgradeImage, halGet, hu, alGet_alSet_self]
      · simp only [loaderUpgradeImage, halGet, hu, Bool.false_eq_true, if_false]
        rw [alGet_alSet_ne _ _ _ _ hxe]
        exact h

theorem loaderUpgradeImage_other (s : LoaderState) (dom : Dom) (e x : Nat)
    (hxe : x ≠ e) :
    loaderIsUpgraded (loaderUpgradeImage s dom e).1 x = loaderIsUpgraded s x := by
  cases halGet : alGet s.images e with
  | none => simp [loaderUpgradeImage, halGet]
  | some t =>
    by_cases hu : t.upgraded
    · simp [loaderUpgradeImage, halGet, hu]
    · unfold loaderIsUpgraded
      simp only [loaderUpgradeImage, halGet, hu, Bool.false_eq_true, if_false]
      rw [alGet_alSet_ne _ _ _ _ hxe]

theorem tryUpgradeImage_visMap (s : CoreState) (e : Nat) :
    (tryUpgradeImage s e).visMap = s.visMap := by
  unfold tryUpgradeImage; split_ifs <;> rfl

theorem tryUpgradeImage_registered (s : CoreState) (e : Nat) :
    (tryUpgradeImage s e).registeredImages = s.registeredImages := by
  unfold tryUpgradeImage; split_ifs <;> rfl

theorem tryUpgradeImage_stable (s : CoreState) (e : Nat) :
    (tryUpgradeImage s e).isSlowStable = s.isSlowStable := by
  unfold tryUpgradeImage; split_ifs <;> rfl

theorem tryUpgradeImage_slowTimer (s : CoreState) (e : Nat) :
    (tryUpgradeImage s e).slowTimer = s.slowTimer := by
  unfold tryUpgradeImage; split_ifs <;> rfl

theorem tryUpgradeImage_cfg (s : CoreState) (e : Nat) :
    (tryUpgradeImage s e).cfg = s.cfg := by
  unfold tryUpgradeImage; split_ifs <;> rfl

theorem tryUpgradeImage_currentSpeed (s : CoreState) (e : Nat) :
    (tryUpgradeImage s e).currentSpeed = s.currentSpeed := by
  unfold tryUpgradeImage; split_ifs <;> rfl

theorem tryUpgradeImage_vel (s : CoreState) (e : Nat) :
    (tryUpgradeImage s e).vel = s.vel := by
  unfold tryUpgradeImage; split_ifs <;> rfl

theorem tryUpgradeImage_upgraded_mono (s : CoreState) (e x : Nat)
    (h : loaderIsUpgraded s.loader x = true) :
    loaderIsUpgraded (tryUpgradeImage s e).loader x = true := by
  unfold tryUpgradeImage
  split_ifs <;> first
    | exact h
    | exact loaderUpgradeImage_upgraded_mono s.loader s.dom e x h

theorem tryUpgradeImage_isSome (s : CoreState) (e x : Nat)
    (h : (alGet s.loader.images x).isSome = true) :
    (alGet (tryUpgradeImage s e).loader.images x).isSome = true := by
  unfold tryUpgradeImage
  split_ifs <;> first
    | exact h
    | exact loaderUpgradeImage_isSome s.loader s.dom e x h

theorem tryUpgradeImage_other (s : CoreState) (e x : Nat) (hxe : x ≠ e) :
    loaderIsUpgraded (tryUpgradeImage s e).loader x = loaderIsUpgraded s.loader x := by
  unfold tryUpgradeImage
  split_ifs <;> first
    | rfl
    | exact loaderUpgradeImage_other s.loader s.dom e x hxe

theorem tryUpgradeImage_success (s : CoreState) (e : Nat)
    (hs : s.isSlowStable = true) (hr : e ∈ s.registeredImages)
    (hk : (alGet s.loader.images e).isSome = true) :
    loaderIsUpgraded (tryUpgradeImage s e).loader e = true := by
  unfold tryUpgradeImage
  rw [if_neg (by simp [hs]), if_neg (by simp [hr])]
  by_cases hu : loaderIsUpgraded s.loader e
  · rw [if_pos hu]; exact hu
  · rw [if_neg hu]
    obtain ⟨t, ht⟩ := Option.isSome_iff_exists.mp hk
    have htu : t.upgraded = false := by
      unfold loaderIsUpgraded at hu
      rw [ht] at hu
      simpa using hu
    show loaderIsUpgraded (loaderUpgradeImage s.loader s.dom e).1 e = true
    simp [loaderUpgradeImage, ht, htu, loaderIsUpgraded, alGet_alSet_self]

/-! ## Lemmas about the upgrade sweep -/

theorem attemptStep_visMap (s : CoreState) (e : Nat) :
    (attemptStep s e).visMap = s.visMap := by
  unfold attemptStep
  split_ifs <;> simp [tryUpgradeImage_visMap]

theorem attemptStep_registered (s : CoreState) (e : Nat) :
    (attemptStep s e).registeredImages = s.registeredImages := by
  unfold attemptStep
  split_ifs <;> simp [tryUpgradeImage_registered]

theorem attemptStep_stable (s : CoreState) (e : Nat) :
    (attemptStep s e).isSlowStable = s.isSlowStable := by
  unfold attemptStep
  split_ifs <;> simp [tryUpgradeImage_stable]

theorem attemptStep_slowTimer (s : CoreState) (e : Nat) :
    (attemptStep s e).slowTimer = s.slowTimer := by
  unfold attemptStep
  split_ifs <;> simp [tryUpgradeImage_slowTimer]

theorem attemptStep_upgraded_mono (s : CoreState) (e x : Nat)
    (h : loaderIsUpgraded s.loader x = true) :
    loaderIsUpgraded (attemptStep s e).loader x = true := by
  unfold attemptStep
  split_ifs <;> first
    | exact h
    | exact tryUpgradeImage_upgraded_mono s e x h

theorem attemptStep_isSome (s : CoreState) (e x : Nat)
    (h : (alGet s.loader.images x).isSome = true) :
    (alGet (attemptStep s e).loader.images x).isSome = true := by
  unfold attemptStep
  split_ifs <;> first
    | exact h
    | exact tryUpgradeImage_isSome s e x h

theorem attemptStep_other (s : CoreState) (e x : Nat) (hxe : x ≠ e) :
    loaderIsUpgraded (attemptStep s e).loader x = loaderIsUpgraded s.loader x := by
  unfold attemptStep
  split_ifs <;> first
    | rfl
    | exact tryUpgradeImage_other s e x hxe

theorem foldl_attemptStep_visMap (l : List Nat) :
    ∀ s : CoreState, (l.foldl attemptStep s).visMap = s.visMap := by
  induction l with
  | nil => intro s; rfl
  | cons hd tl ih =>
    intro s
    rw [List.foldl_cons, ih (attemptStep s hd), attemptStep_visMap]

theorem foldl_attemptStep_registered (l : List Nat) :
    ∀ s : CoreState, (l.foldl attemptStep s).registeredImages = s.registeredImages := by
  induction l with
  | nil => intro s; rfl
  | cons hd tl ih =>
    intro s
    rw [List.foldl_cons, ih (attemptStep s hd), attemptStep_registered]

theorem foldl_attemptStep_stable (l : List Nat) :
    ∀ s : CoreState, (l.foldl attemptStep s).isSlowStable = s.isSlowStable := by
  induction l with
  | nil => intro s; rfl
  | cons hd tl ih =>
    intro s
    rw [List.foldl_cons, ih (attemptStep s hd), attemptStep_stable]

theorem foldl_attemptStep_slowTimer (l : List Nat) :
    ∀ s : CoreState, (l.foldl attemptStep s).slowTimer = s.slowTimer := by
  induction l with
  | nil => intro s; rfl
  | cons hd tl ih =>
    intro s
    rw [List.foldl_cons, ih (attemptStep s hd), attemptStep_slowTimer]

theorem foldl_attemptStep_upgraded_mono (l : List Nat) :
    ∀ s : CoreState, ∀ x : Nat, loaderIsUpgraded s.loader x = true →
    loaderIsUpgraded ((l.foldl attemptStep s)).loader x = true := by
  induction l with
  | nil => intro s x h; exact h
  | cons hd tl ih =>
    intro s x h
    exact ih (attemptStep s hd) x (attemptStep_upgraded_mono s hd x h)

theorem foldl_attemptStep_success (l : List Nat) :
    ∀ s : CoreState, ∀ e : Nat, s.isSlowStable = true → e ∈ l →
    visIsVisible s.visMap e = true → e ∈ s.registeredImages →
    (alGet s.loader.images e).isSome = true →
    loaderIsUpgraded ((l.foldl attemptStep s)).loader e = true := by
  induction l with
  | nil => intro s e _ he; cases he
  | cons hd tl ih =>
    intro s e hs he hv hr hk
    rw [List.foldl_cons]
    rcases List.mem_cons.mp he with he | he
    · subst he
      have hstep : loaderIsUpgraded (attemptStep s e).loader e = true := by
        unfold attemptStep
        rw [if_pos hv]
        exact tryUpgradeImage_success s e hs hr hk
      exact foldl_attemptStep_upgraded_mono tl (attemptStep s e) e hstep
    · exact ih (attemptStep s hd) e
        (by rw [attemptStep_stable]; exact hs) he
        (by rw [attemptStep_visMap]; exact hv)
        (by rw [attemptStep_registered]; exact hr)
        (attemptStep_isSome s hd e hk)

theorem foldl_attemptStep_not_visible (l : List Nat) :
    ∀ s : CoreState, ∀ e : Nat, visIsVisible s.visMap e = false →
    loaderIsUpgraded ((l.foldl attemptStep s)).loader e =
      loaderIsUpgraded s.loader e := by
  induction l with
  | nil => intro s e _; rfl
  | cons hd tl ih =>
    intro s e hv
    rw [List.foldl_cons]
    have hsv : visIsVisible (attemptStep s hd).visMap e = false := by
      rw [attemptStep_visMap]; exact hv
    rw [ih (attemptStep s hd) e hsv]
    by_cases hde : hd = e
    · subst hde
      unfold attemptStep
      rw [if_neg (by simp [hv])]
    · unfold attemptStep
      split_ifs with h
      · exact tryUpgradeImage_other s hd e (Ne.symm hde)
      · rfl

/-! ## Visibility lemmas -/

theorem visIsVisible_alSet_self (m : VisMap) (e : Nat) (v : Bool) :
    visIsVisible (alSet m e v) e = v := by
  unfold visIsVisible
  rw [alGet_alSet_self]
  cases v <;> rfl

theorem visIsVisible_alSet_ne (m : VisMap) (e x : Nat) (v : Bool) (h : x ≠ e) :
    visIsVisible (alSet m e v) x = visIsVisible m x := by
  unfold visIsVisible
  rw [alGet_alSet_ne _ _ _ _ h]

theorem visIsVisible_observe (m : VisMap) (e : Nat) :
    visIsVisible (visObserveImage m e) e = false := by
  unfold visObserveImage
  exact visIsVisible_alSet_self m e false

/-! ## Characterisation of registration -/

theorem registerImage_unfold (s : CoreState) (e : Nat) (opts : ImageResourceConfig) :
    registerImage s e opts =
      { s with
        registeredImages := setAdd s.registeredImages e,
        loader := ⟨alSet s.loader.images e ⟨opts.lowSrc, opts.highSrc, false⟩⟩,
        dom := domSetSrc
          (if (domGet s.dom e).dataLabel.getD "" = "" then
            domSetLabel s.dom e opts.highSrc
          else s.dom) e opts.lowSrc,
        visMap := alSet s.visMap e false } := by
  unfold registerImage loaderRegisterImage visObserveImage
  dsimp only
  by_cases h : (domGet s.dom e).dataLabel.getD "" = ""
  · rw [if_pos h, if_pos h]
    dsimp only
    rw [if_neg (by rw [visIsVisible_alSet_self]; simp)]
  · rw [if_neg h, if_neg h]
    dsimp only
    rw [if_neg (by rw [visIsVisible_alSet_self]; simp)]

/-! ## Characterisation of the event step -/

theorem step_scroll_eq (s : CoreState) (now y : Rat) (hat : s.vel.attached = true) :
    step s (.scroll now y) = handleSpeedChange (scrollUpdate s now y) := by
  simp only [step, velHandleScroll, onVelocityUpdate, scrollUpdate]
  rw [if_pos hat]

theorem handleSpeedChange_FAST (s : CoreState) (h : s.currentSpeed = .FAST) :
    handleSpeedChange s = { s with isSlowStable := false, slowTimer := none } := by
  unfold handleSpeedChange
  rw [h]

theorem handleSpeedChange_SLOW_stable (s : CoreState) (h : s.currentSpeed = .SLOW)
    (hs : s.isSlowStable = true) : handleSpeedChange s = s := by
  unfold handleSpeedChange
  rw [h]
  dsimp only
  rw [if_pos hs]

theorem handleSpeedChange_SLOW_pending (s : CoreState) (d : Rat)
    (h : s.currentSpeed = .SLOW) (hs : s.isSlowStable = false)
    (ht : s.slowTimer = some d) : handleSpeedChange s = s := by
  unfold handleSpeedChange
  rw [h]
  dsimp only
  rw [if_neg (by simp [hs]), if_neg (by simp [ht])]

theorem handleSpeedChange_SLOW_start (s : CoreState)
    (h : s.currentSpeed = .SLOW) (hs : s.isSlowStable = false)
    (ht : s.slowTimer = none) :
    handleSpeedChange s = { s with slowTimer := some (max s.cfg.slowDurationMs 0) } := by
  unfold handleSpeedChange
  rw [h]
  dsimp only
  rw [if_neg (by simp [hs]), if_pos ht]

theorem fireSlowTimer_none (s : CoreState) (h : s.slowTimer = none) :
    fireSlowTimer s = s := by
  unfold fireSlowTimer
  rw [h]

theorem fireSlowTimer_SLOW (s : CoreState) (d : Rat) (ht : s.slowTimer = some d)
    (hsp : s.currentSpeed = .SLOW) :
    fireSlowTimer s =
      attemptUpgradesForVisibleImages
        { s with slowTimer := none, isSlowStable := true } := by
  unfold fireSlowTimer
  rw [ht]
  dsimp only
  rw [if_pos hsp]

theorem fireSlowTimer_not_SLOW (s : CoreState) (d : Rat) (ht : s.slowTimer = some d)
    (hsp : s.currentSpeed ≠ .SLOW) :
    fireSlowTimer s = { s with slowTimer := none } := by
  unfold fireSlowTimer
  rw [ht]
  dsimp only
  rw [if_neg hsp]

/-- C3: FAST always wins immediately.  From any orchestrator state, a
scroll sample classified FAST synchronously (within the same event)
makes `isSlowStable` false, cancels any pending debounce timer, and
records the FAST speed — before any further callback can run. -/
theorem fast_sample_blocks_upgrades (s : CoreState) (now y : Rat)
    (hat : s.vel.attached = true)
    (hf : classifySpeed s.cfg.slowVelocityThreshold
        (computeVelocity s.vel.lastY s.vel.lastTime now y) = .FAST) :
    (step s (.scroll now y)).isSlowStable = false ∧
    (step s (.scroll now y)).slowTimer = none ∧
    (step s (.scroll now y)).currentSpeed = .FAST := by
  rw [step_scroll_eq s now y hat, handleSpeedChange_FAST (scrollUpdate s now y) hf]
  exact ⟨rfl, rfl, hf⟩

/-- Witness for `fast_sample_blocks_upgrades`: a FAST sample arriving in
the stable SLOW state (threshold 1 px/ms, velocity 10 px/ms). -/
theorem fast_sample_blocks_upgrades_witness :
    (step (run (createCore ⟨1, 5⟩ 0 0 []) [.timerFire]) (.scroll 1 10)).isSlowStable
        = false ∧
    (step (run (createCore ⟨1, 5⟩ 0 0 []) [.timerFire]) (.scroll 1 10)).slowTimer
        = none := by
  have h := fast_sample_blocks_upgrades (run (createCore ⟨1, 5⟩ 0 0 []) [.timerFire])
    1 10 (by decide)
    (by
      norm_num [classifySpeed, computeVelocity,
        show (run (createCore ⟨1, 5⟩ 0 0 []) [.timerFire]).vel.lastY = 0 from rfl,
        show (run (createCore ⟨1, 5⟩ 0 0 []) [.timerFire]).vel.lastTime = 0 from rfl,
        show (run (createCore ⟨1, 5⟩ 0 0 [])
          [.timerFire]).cfg.slowVelocityThreshold = 1 from rfl])
  exact ⟨h.1, h.2.1⟩

/-- C8: velocity classifier contract.  A sample with zero elapsed time
has velocity 0; with positive elapsed time the velocity is the absolute
position delta divided by the elapsed time; the classification is SLOW
exactly when the velocity is at most the threshold (so with a
non-negative threshold a zero-elapsed-time sample is SLOW); and the
classifier emits the initial synthetic state with velocity 0 and speed
SLOW at start. -/
theorem velocity_classifier_contract (threshold : Rat) (st : VelState)
    (now y y0 t0 : Rat) :
    (now - st.lastTime = 0 → (velHandleScroll threshold st now y).2.velocity = 0) ∧
    (0 < now - st.lastTime →
      (velHandleScroll threshold st now y).2.velocity
        = |y - st.lastY| / (now - st.lastTime)) ∧
    ((velHandleScroll threshold st now y).2.speed = .SLOW ↔
      (velHandleScroll threshold st now y).2.velocity ≤ threshold) ∧
    (0 ≤ threshold → now - st.lastTime = 0 →
      (velHandleScroll threshold st now y).2.speed = .SLOW) ∧
    (initScrollVelocity y0 t0).2 = ⟨0, .SLOW⟩ := by
  have hvel : ∀ h : now - st.lastTime = 0,
      (velHandleScroll threshold st now y).2.velocity = 0 := by
    intro h
    show computeVelocity st.lastY st.lastTime now y = 0
    unfold computeVelocity
    rw [h]
    simp
  refine ⟨hvel, ?_, ?_, ?_, rfl⟩
  · intro h
    show computeVelocity st.lastY st.lastTime now y = |y - st.lastY| / (now - st.lastTime)
    unfold computeVelocity
    rw [if_pos h]
  · show classifySpeed threshold (computeVelocity st.lastY st.lastTime now y) = .SLOW ↔
      computeVelocity st.lastY st.lastTime now y ≤ threshold
    unfold classifySpeed
    split_ifs with h <;> simp [h]
  · intro hth h
    show classifySpeed threshold (computeVelocity st.lastY st.lastTime now y) = .SLOW
    have h0 : computeVelocity st.lastY st.lastTime now y = 0 := hvel h
    rw [h0]
    unfold classifySpeed
    rw [if_pos hth]

/-- Witness for `velocity_classifier_contract`: a zero-elapsed-time
sample has velocity 0 and is classified SLOW under threshold 1; a sample
moving 4 px in 2 ms has velocity 2 px/ms. -/
theorem velocity_classifier_contract_witness :
    (velHandleScroll 1 ⟨0, 0, .SLOW, true⟩ 0 5).2.velocity = 0 ∧
    (velHandleScroll 1 ⟨0, 0, .SLOW, true⟩ 0 5).2.speed = .SLOW ∧
    (velHandleScroll 1 ⟨0, 0, .SLOW, true⟩ 2 4).2.velocity = 2 := by
  refine ⟨(velocity_classifier_contract 1 ⟨0, 0, .SLOW, true⟩ 0 5 0 0).1 (by norm_num),
    (velocity_classifier_contract 1 ⟨0, 0, .SLOW, true⟩ 0 5 0 0).2.2.2.1
      (by norm_num) (by norm_num), ?_⟩
  rw [(velocity_classifier_contract 1 ⟨0, 0, .SLOW, true⟩ 2 4 0 0).2.1 (by norm_num)]
  norm_num

/-- C4: debounce semantics.  A SLOW sample while already stable, or
while a timer is already pending, changes none of the debounce or
upgrade state (in particular the pending timer is not restarted); a SLOW
sample with no pending timer and no stability starts the debounce timer;
when the timer fires with the speed still SLOW the orchestrator becomes
stable and every registered, tracked-visible, loader-known resource ends
up upgraded; when it fires with the speed no longer SLOW, only the
consumed timer handle is dropped and nothing else changes. -/
theorem debounce_semantics (s : CoreState) :
    (∀ now y : Rat, s.vel.attached = true →
      classifySpeed s.cfg.slowVelocityThreshold
        (computeVelocity s.vel.lastY s.vel.lastTime now y) = .SLOW →
      s.isSlowStable = true →
      (step s (.scroll now y)).slowTimer = s.slowTimer ∧
      (step s (.scroll now y)).isSlowStable = true ∧
      (step s (.scroll now y)).loader = s.loader ∧
      (step s (.scroll now y)).visMap = s.visMap ∧
      (step s (.scroll now y)).registeredImages = s.registeredImages) ∧
    (∀ now y : Rat, ∀ d : Rat, s.vel.attached = true →
      classifySpeed s.cfg.slowVelocityThreshold
        (computeVelocity s.vel.lastY s.vel.lastTime now y) = .SLOW →
      s.isSlowStable = false → s.slowTimer = some d →
      (step s (.scroll now y)).slowTimer = some d ∧
      (step s (.scroll now y)).isSlowStable = false ∧
      (step s (.scroll now y)).loader = s.loader ∧
      (step s (.scroll now y)).visMap = s.visMap ∧
      (step s (.scroll now y)).registeredImages = s.registeredImages) ∧
    (∀ now y : Rat, s.vel.attached = true →
      classifySpeed s.cfg.slowVelocityThreshold
        (computeVelocity s.vel.lastY s.vel.lastTime now y) = .SLOW →
      s.isSlowStable = false → s.slowTimer = none →
      (step s (.scroll now y)).slowTimer = some (max s.cfg.slowDurationMs 0) ∧
      (step s (.scroll now y)).isSlowStable = false ∧
      (step s (.scroll now y)).loader = s.loader) ∧
    (∀ d : Rat, s.slowTimer = some d → s.currentSpeed = .SLOW →
      (step s .timerFire).isSlowStable = true ∧
      (step s .timerFire).slowTimer = none ∧
      (∀ e : Nat, e ∈ s.registeredImages → visIsVisible s.visMap e = true →
        (alGet s.loader.images e).isSome = true →
        loaderIsUpgraded (step s .timerFire).loader e = true)) ∧
    (∀ d : Rat, s.slowTimer = some d → s.currentSpeed = .FAST →
      step s .timerFire = { s with slowTimer := none }) := by
  refine ⟨?_, ?_, ?_, ?_, ?_⟩
  · intro now y hat hcl hs
    rw [step_scroll_eq s now y hat,
      handleSpeedChange_SLOW_stable (scrollUpdate s now y) hcl hs]
    exact ⟨rfl, hs, rfl, rfl, rfl⟩
  · intro now y d hat hcl hs ht
    rw [step_scroll_eq s now y hat,
      handleSpeedChange_SLOW_pending (scrollUpdate s now y) d hcl hs ht]
    exact ⟨ht, hs, rfl, rfl, rfl⟩
  · intro now y hat hcl hs ht
    rw [step_scroll_eq s now y hat,
      handleSpeedChange_SLOW_start (scrollUpdate s now y) hcl hs ht]
    exact ⟨rfl, hs, rfl⟩
  · intro d ht hsp
    have hstep : step s .timerFire =
        attemptUpgradesForVisibleImages
          { s with slowTimer := none, isSlowStable := true } :=
      fireSlowTimer_SLOW s d ht hsp
    rw [hstep]
    unfold attemptUpgradesForVisibleImages
    refine ⟨?_, ?_, ?_⟩
    · rw [foldl_attemptStep_stable]
    · rw [foldl_attemptStep_slowTimer]
    · intro e he hv hk
      exact foldl_attemptStep_success _ _ e rfl he hv he hk
  · intro d ht hsp
    exact fireSlowTimer_not_SLOW s d ht (by rw [hsp]; decide)

/-- Witness for `debounce_semantics`: from the freshly created core
(timer pending with delay 5), a SLOW sample keeps the same timer; the
timer firing makes the core stable; and with a registered visible image
the firing upgrades it. -/
theorem debounce_semantics_witness :
    (step (createCore ⟨1, 5⟩ 0 0 []) (.scroll 1 0)).slowTimer = some 5 ∧
    (step (createCore ⟨1, 5⟩ 0 0 []) .timerFire).isSlowStable = true ∧
    loaderIsUpgraded
      (step (run (createCore ⟨1, 5⟩ 0 0 [])
        [.register 7 ⟨"low.jpg", "high.jpg"⟩, .intersect 7 true]) .timerFire).loader 7
      = true := by
  refine ⟨?_, ?_, ?_⟩
  · exact ((debounce_semantics (createCore ⟨1, 5⟩ 0 0 [])).2.1 1 0 5 (by decide)
      (by
        norm_num [classifySpeed, computeVelocity,
          show (createCore ⟨1, 5⟩ 0 0 []).vel.lastY = 0 from rfl,
          show (createCore ⟨1, 5⟩ 0 0 []).vel.lastTime = 0 from rfl,
          show (createCore ⟨1, 5⟩ 0 0 []).cfg.slowVelocityThreshold = 1 from rfl])
      (by decide) (by decide)).1
  · exact ((debounce_semantics (createCore ⟨1, 5⟩ 0 0 [])).2.2.2.1 5 (by decide)
      (by decide)).1
  · exact ((debounce_semantics (run (createCore ⟨1, 5⟩ 0 0 [])
      [.register 7 ⟨"low.jpg", "high.jpg"⟩, .intersect 7 true])).2.2.2.1 5
      (by decide) (by decide)).2.2 7 (by decide) (by decide) (by decide)

/-! ## Per-event preservation lemmas -/

theorem step_scroll_detached (s : CoreState) (now y : Rat)
    (hat : s.vel.attached = false) : step s (.scroll now y) = s := by
  simp only [step]
  rw [if_neg (by rw [hat]; exact Bool.false_ne_true)]

theorem handleSpeedChange_loader (s : CoreState) :
    (handleSpeedChange s).loader = s.loader := by
  unfold handleSpeedChange
  cases h : s.currentSpeed
  · rfl
  · dsimp only
    split_ifs <;> rfl

/-- C5: visibility gating with re-validated guard.  A single event never
leaves an element upgraded while its tracked visibility is (still)
false; and the guarded `tryUpgradeImage` is a no-op whenever any of its
three conditions — stable SLOW, registered, not yet upgraded — fails at
the moment of the attempt. -/
theorem visibility_gating (s : CoreState) (e : Nat) :
    (∀ ev : Event, loaderIsUpgraded s.loader e = false →
      visIsVisible (step s ev).visMap e = false →
      loaderIsUpgraded (step s ev).loader e = false) ∧
    (s.isSlowStable = false ∨ e ∉ s.registeredImages ∨
        loaderIsUpgraded s.loader e = true →
      tryUpgradeImage s e = s) := by
  constructor
  · intro ev h1 h2
    cases ev with
    | scroll now y =>
      by_cases hat : s.vel.attached = true
      · rw [step_scroll_eq s now y hat, handleSpeedChange_loader]
        exact h1
      · rw [step_scroll_detached s now y (by
          cases hv : s.vel.attached
          · rfl
          · exact absurd hv hat)]
        exact h1
    | intersect x vis =>
      show loaderIsUpgraded (handleIntersection s x vis).loader e = false
      replace h2 : visIsVisible (handleIntersection s x vis).visMap e = false := h2
      unfold handleIntersection at h2 ⊢
      by_cases hobs : (alGet s.visMap x).isNone
      · rw [if_pos hobs]
        exact h1
      · rw [if_neg hobs] at h2 ⊢
        dsimp only at h2 ⊢
        by_cases hchg : alGet s.visMap x ≠ some vis
        · rw [if_pos hchg] at h2 ⊢
          unfold onVisibilityChange at h2 ⊢
          dsimp only at h2 ⊢
          by_cases hcond : (vis && s.isSlowStable) = true
          · rw [if_pos hcond] at h2 ⊢
            by_cases hxe : x = e
            · subst hxe
              rw [tryUpgradeImage_visMap] at h2
              dsimp only at h2
              rw [visIsVisible_alSet_self] at h2
              rw [h2] at hcond
              simp at hcond
            · rw [tryUpgradeImage_other _ x e (Ne.symm hxe)]
              exact h1
          · rw [if_neg hcond] at h2 ⊢
            exact h1
        · rw [if_neg hchg] at h2 ⊢
          exact h1
    | timerFire =>
      show loaderIsUpgraded (fireSlowTimer s).loader e = false
      cases ht : s.slowTimer with
      | none => rw [fireSlowTimer_none s ht]; exact h1
      | some d =>
        cases hsp : s.currentSpeed with
        | FAST =>
          rw [fireSlowTimer_not_SLOW s d ht (by rw [hsp]; decide)]
          exact h1
        | SLOW =>
          replace h2 : visIsVisible (fireSlowTimer s).visMap e = false := h2
          rw [fireSlowTimer_SLOW s d ht hsp] at h2 ⊢
          unfold attemptUpgradesForVisibleImages at h2 ⊢
          rw [foldl_attemptStep_visMap] at h2
          rw [foldl_attemptStep_not_visible _ _ e h2]
          exact h1
    | register x opts =>
      show loaderIsUpgraded (registerImage s x opts).loader e = false
      rw [registerImage_unfold]
      by_cases hxe : x = e
      · subst hxe
        unfold loaderIsUpgraded
        rw [alGet_alSet_self]
      · unfold loaderIsUpgraded
        rw [alGet_alSet_ne _ _ _ _ (Ne.symm hxe)]
        exact h1
    | destroyEvt => rfl
  · intro h
    unfold tryUpgradeImage
    by_cases h1 : s.isSlowStable = false
    · rw [if_pos h1]
    · rw [if_neg h1]
      by_cases h2 : e ∉ s.registeredImages
      · rw [if_pos h2]
      · rw [if_neg h2]
        by_cases h3 : loaderIsUpgraded s.loader e = true
        · rw [if_pos h3]
        · rw [if_neg h3]
          exfalso
          rcases h with h | h | h
          exacts [h1 h, h2 h, h3 h]

/-- Witness for `visibility_gating`: the guarded upgrade is a no-op on
the freshly created (unstable) core; and the timer firing on a stable
core with a registered but invisible image leaves it un-upgraded. -/
theorem visibility_gating_witness :
    tryUpgradeImage (createCore ⟨1, 5⟩ 0 0 []) 3 = createCore ⟨1, 5⟩ 0 0 [] ∧
    loaderIsUpgraded
      (step (run (createCore ⟨1, 5⟩ 0 0 [])
        [.timerFire, .register 7 ⟨"low.jpg", "high.jpg"⟩]) .timerFire).loader 7
      = false := by
  constructor
  · exact (visibility_gating (createCore ⟨1, 5⟩ 0 0 []) 3).2 (Or.inl (by decide))
  · exact (visibility_gating (run (createCore ⟨1, 5⟩ 0 0 [])
      [.timerFire, .register 7 ⟨"low.jpg", "high.jpg"⟩]) 7).1 .timerFire
      (by decide) (by decide)

/-- C10: `observeImage` unconditionally overwrites the stored visibility
entry with `false`, so immediately after the core `registerImage`
returns, the tracker reports the element not visible, the registration
guard cannot fire, and no element is upgraded during the call (the
registered element itself ends not-upgraded; every other element keeps
its upgrade state). -/
theorem register_resets_visibility (s : CoreState) (e : Nat)
    (opts : ImageResourceConfig) :
    visIsVisible (registerImage s e opts).visMap e = false ∧
    (∀ m : VisMap, visIsVisible (visObserveImage m e) e = false) ∧
    loaderIsUpgraded (registerImage s e opts).loader e = false ∧
    (∀ x : Nat, loaderIsUpgraded (registerImage s e opts).loader x
      = if x = e then false else loaderIsUpgraded s.loader x) := by
  refine ⟨?_, fun m => visIsVisible_observe m e, ?_, ?_⟩
  · rw [registerImage_unfold]
    exact visIsVisible_alSet_self s.visMap e false
  · rw [registerImage_unfold]
    show loaderIsUpgraded ⟨alSet s.loader.images e ⟨opts.lowSrc, opts.highSrc, false⟩⟩ e
      = false
    unfold loaderIsUpgraded
    rw [alGet_alSet_self]
  · intro x
    rw [registerImage_unfold]
    show loaderIsUpgraded ⟨alSet s.loader.images e ⟨opts.lowSrc, opts.highSrc, false⟩⟩ x
      = _
    by_cases hx : x = e
    · subst hx
      rw [if_pos rfl]
      unfold loaderIsUpgraded
      rw [alGet_alSet_self]
    · rw [if_neg hx]
      unfold loaderIsUpgraded
      rw [alGet_alSet_ne _ _ _ _ hx]

/-- C9: idempotent re-registration.  Registering an element (again)
always resets its tracked entry to the new configuration with
`upgraded = false` and applies the low representation to the element,
regardless of any previous state — the last registration wins. -/
theorem reregister_resets (s : LoaderState) (dom : Dom) (e : Nat)
    (cfg : ImageResourceConfig) :
    loaderIsUpgraded (loaderRegisterImage s dom e cfg).1 e = false ∧
    alGet (loaderRegisterImage s dom e cfg).1.images e
      = some ⟨cfg.lowSrc, cfg.highSrc, false⟩ ∧
    (domGet (loaderRegisterImage s dom e cfg).2 e).src = cfg.lowSrc := by
  refine ⟨?_, ?_, ?_⟩
  · unfold loaderRegisterImage loaderIsUpgraded
    dsimp only
    rw [alGet_alSet_self]
  · unfold loaderRegisterImage
    dsimp only
    rw [alGet_alSet_self]
  · unfold loaderRegisterImage
    dsimp only
    rw [domGet_domSetSrc_self]

/-- C2 at the failing input: the orchestrator is stable SLOW and element
7 is tracked visible (and already upgraded from an earlier
registration), yet calling `registerImage` for it again performs no
upgrade during the call — the element comes out not-upgraded, because
`observeImage` resets its tracked visibility before the registration
guard is evaluated. -/
theorem register_visible_no_immediate_upgrade :
    (run (createCore ⟨1, 5⟩ 0 0 [])
      [.timerFire, .register 7 ⟨"low.jpg", "high.jpg"⟩, .intersect 7 true]).isSlowStable
      = true ∧
    visIsVisible (run (createCore ⟨1, 5⟩ 0 0 [])
      [.timerFire, .register 7 ⟨"low.jpg", "high.jpg"⟩, .intersect 7 true]).visMap 7
      = true ∧
    loaderIsUpgraded (run (createCore ⟨1, 5⟩ 0 0 [])
      [.timerFire, .register 7 ⟨"low.jpg", "high.jpg"⟩, .intersect 7 true]).loader 7
      = true ∧
    loaderIsUpgraded
      (registerImage (run (createCore ⟨1, 5⟩ 0 0 [])
        [.timerFire, .register 7 ⟨"low.jpg", "high.jpg"⟩, .intersect 7 true]) 7
        ⟨"low.jpg", "high.jpg"⟩).loader 7 = false := by
  exact ⟨by decide, by decide, by decide, by decide⟩

/-- C6 counterexample: a negative `slowVelocityThreshold` is accepted at
initialization — `createCore` / `initResourceLoader` store it unchanged
(no validation failure, no clamping), and it takes effect: even a
velocity of 0 is then classified FAST. -/
theorem negative_threshold_accepted :
    (createCore ⟨-1, 200⟩ 0 0 []).cfg.slowVelocityThreshold = -1 ∧
    (initResourceLoader ⟨-1, 200⟩ 0 0 []).cfg.slowVelocityThreshold = -1 ∧
    classifySpeed (-1) 0 = .FAST := by
  refine ⟨by decide, by decide, ?_⟩
  unfold classifySpeed
  rw [if_neg (by norm_num)]

/-- C6 (amended): initialization performs no validation at all — the
configuration, including a negative velocity threshold, is stored
unchanged — while a negative `slowDurationMs` is accepted and treated as
zero: the debounce timer scheduled by the initial SLOW emission carries
the platform-clamped delay `max slowDurationMs 0`. -/
theorem init_no_validation (cfg : InitConfig) (y0 t0 : Rat) (dom0 : Dom) :
    (createCore cfg y0 t0 dom0).cfg = cfg ∧
    (initResourceLoader cfg y0 t0 dom0).cfg = cfg ∧
    (createCore cfg y0 t0 dom0).slowTimer = some (max cfg.slowDurationMs 0) ∧
    (createCore cfg y0 t0 dom0).isSlowStable = false := by
  refine ⟨?_, ?_, ?_, ?_⟩ <;>
    simp [createCore, initResourceLoader, initScrollVelocity, onVelocityUpdate,
      handleSpeedChange]

/-- C7 counterexample: calling `destroy` from the stable SLOW state does
not reset the stability flag — `isSlowStable` is still `true` after the
teardown, contradicting the reset to `{false, none}` the claim
specifies. -/
theorem destroy_keeps_stability_flag :
    (run (createCore ⟨1, 5⟩ 0 0 []) [.timerFire]).isSlowStable = true ∧
    (run (createCore ⟨1, 5⟩ 0 0 []) [.timerFire, .destroyEvt]).isSlowStable = true := by
  exact ⟨by decide, by decide⟩

/-- C7 (amended): teardown cancels any pending debounce timer, stops the
velocity signal production (scroll samples become no-ops), stops all
visibility observation (the tracked map is cleared and intersection
samples become no-ops), clears the registered set and clears the loader
entries — but it leaves `isSlowStable` unchanged rather than resetting
it to `false`. -/
theorem destroy_teardown (s : CoreState) :
    (destroy s).slowTimer = none ∧
    (destroy s).vel.attached = false ∧
    (destroy s).visMap = [] ∧
    (destroy s).registeredImages = [] ∧
    (destroy s).loader.images = [] ∧
    (destroy s).isSlowStable = s.isSlowStable ∧
    (∀ x : Nat, ∀ vis : Bool, step (destroy s) (.intersect x vis) = destroy s) ∧
    (∀ now y : Rat, step (destroy s) (.scroll now y) = destroy s) := by
  refine ⟨rfl, rfl, rfl, rfl, rfl, rfl, ?_, ?_⟩
  · intro x vis
    show handleIntersection (destroy s) x vis = destroy s
    unfold handleIntersection
    rw [if_pos (show (alGet (destroy s).visMap x).isNone = true from rfl)]
  · intro now y
    exact step_scroll_detached _ now y rfl

end AdaptiveLoader
